import Mathlib

/-!
Shallow embedding of the `code-interpreter` sandbox service
(`app/services/executor_base.py`, `executor_docker.py`,
`executor_kubernetes.py`, `app/services/file_storage.py`,
`app/api/routes.py`), together with theorems settling the specification
claims about it.

Byte strings are modelled as `List Nat` (one `Nat` per byte); Python's
`str` values are modelled as Lean `String`s where the claim is about path
strings.  Decoding with `errors="replace"` turns a byte string into text
without dropping or adding *decoded* content for valid UTF-8; the claims
about output truncation and streaming caps are stated at the byte level,
on the byte strings handed to the decoder, exactly as the code computes
them.
-/

namespace CodeInterpreter

/-! ### `BaseExecutor.truncate_output` (executor_base.py, lines 156-162)

```python
@staticmethod
def truncate_output(stream: bytes, max_bytes: int) -> str:
    if len(stream) <= max_bytes:
        return stream.decode("utf-8", errors="replace")
    head = stream[: max(0, max_bytes - 32)]
    suffix = b"\n...[truncated]"
    return (head + suffix).decode("utf-8", errors="replace")
```

`truncate_output` below returns the byte string that the Python code
decodes (the decode step itself neither drops nor reorders bytes' decoded
content).  Python's `max(0, max_bytes - 32)` coincides with Lean's
truncated subtraction on `Nat`. -/

/-- The 15 ASCII bytes of the literal `b"\n...[truncated]"`. -/
def truncationSuffix : List Nat :=
  [10, 46, 46, 46, 91, 116, 114, 117, 110, 99, 97, 116, 101, 100, 93]

/-- The byte string returned (then UTF-8-decoded with replacement) by
`BaseExecutor.truncate_output`. -/
def truncate_output (stream : List Nat) (max_bytes : Nat) : List Nat :=
  if stream.length ≤ max_bytes then stream
  else stream.take (max_bytes - 32) ++ truncationSuffix

/-! ### `_validate_relative_path` (executor_docker.py lines 70-86;
an identical copy lives in executor_kubernetes.py lines 508-524)

```python
def _validate_relative_path(self, path_str: str) -> Path:
    path = Path(path_str)
    if path.is_absolute():
        raise ValueError("File paths must be relative.")
    sanitized_parts = []
    for part in path.parts:
        if part in ("", "."):
            continue
        if part == "..":
            raise ValueError("File paths must not contain '..'.")
        sanitized_parts.append(part)
    if not sanitized_parts:
        raise ValueError("File path must not be empty.")
    return Path(*sanitized_parts)
```

A POSIX `Path` is absolute iff the string starts with `/`; its `parts`
are the slash-separated components with empty and `"."` components
already dropped, so splitting on `/` and filtering `""` and `"."`
reproduces the sanitized parts exactly.  The `".."` test fires on the
components in order, before the emptiness test, which the ordering of the
checks below preserves (`".."` survives the filter unchanged).  Splitting
on `/` is defined by structural recursion on the character list. -/

/-- Split a character list on `'/'`, accumulating the current segment in
reverse; `splitOnSlashAux [] s.data` is the list of slash-separated
segments of `s` (Python's `s.split("/")`). -/
def splitOnSlashAux (acc : List Char) : List Char → List String
  | [] => [String.mk acc.reverse]
  | c :: cs =>
    if c = '/' then String.mk acc.reverse :: splitOnSlashAux [] cs
    else splitOnSlashAux (c :: acc) cs

/-- The slash-separated segments of a path string. -/
def pathSegments (s : String) : List String :=
  splitOnSlashAux [] s.data

/-- `PurePosixPath.is_absolute()`: the string starts with `/`. -/
def isAbsolutePath (s : String) : Bool :=
  match s.data with
  | c :: _ => c = '/'
  | [] => false

def validate_relative_path (path_str : String) : Except String (List String) :=
  if isAbsolutePath path_str then
    Except.error "File paths must be relative."
  else
    let parts := (pathSegments path_str).filter (fun p => p ≠ "" ∧ p ≠ ".")
    if ".." ∈ parts then
      Except.error "File paths must not contain '..'."
    else if parts = [] then
      Except.error "File path must not be empty."
    else
      Except.ok parts

/-! ### `_create_tar_archive` (executor_docker.py lines 88-143,
executor_kubernetes.py lines 124-181)

Both builders write, in order, a header for `__main__.py` (mode `0o644`,
size = length of the encoded code bytes), then for each staged input, the
not-yet-created parent directories (`dir_path = "/".join(parent_parts[:i+1])`,
name `dir_path + "/"`, type DIRTYPE, mode `0o755`) followed by the file
itself (mode `0o644`, size = `len(content)`).  The Kubernetes builder sets
`uid = gid = 65532` on every `TarInfo`; the Docker builder never assigns
`uid`/`gid`, so they keep `tarfile.TarInfo`'s defaults `uid = 0, gid = 0`.
The two bodies are otherwise identical, so they are embedded as one
function parametrised by the owner ids.  The user code is wrapped
(`wrap_last_line_interactive`) and UTF-8 encoded before being added; the
archive only depends on the resulting byte string, which is the `code`
parameter here. -/

/-- One tar member header as the builders populate it: `name`, directory
flag (`TarInfo.type == DIRTYPE`), `mode`, `uid`, `gid` and declared
`size`. -/
structure TarEntry where
  name : String
  isDir : Bool
  mode : Nat
  uid : Nat
  gid : Nat
  size : Nat
  deriving Repr, DecidableEq

/-- The joined ancestor paths `"/".join(parts[:i+1])` for
`i in range(len(parts))`, in depth order (shallowest first), as the
builders' inner loop enumerates them over `parent_parts`. -/
def prefixJoins : List String → List String
  | [] => []
  | p :: rest => p :: (prefixJoins rest).map (fun s => p ++ "/" ++ s)

/-- The builders' directory-creation loop: walk the ancestor paths in
depth order, emit a directory header for each one not yet in
`created_dirs`, and record it.  Returns the emitted headers and the grown
`created_dirs` set (modelled as a list, membership-tested). -/
def addMissingDirs (uid gid : Nat) (created : List String) :
    List String → List TarEntry × List String
  | [] => ([], created)
  | d :: ds =>
    if d ∈ created then addMissingDirs uid gid created ds
    else
      let rest := addMissingDirs uid gid (created ++ [d]) ds
      (⟨d ++ "/", true, 0o755, uid, gid, 0⟩ :: rest.1, rest.2)

/-- The per-file body of the builders' loop over `files`: validate the
path, reject the reserved entrypoint name, emit missing parent
directories then the file header. -/
def stageFiles (uid gid : Nat) (created : List String) :
    List (String × List Nat) → Except String (List TarEntry)
  | [] => Except.ok []
  | (file_path, content) :: rest => do
    let parts ← validate_relative_path file_path
    if parts = ["__main__.py"] then
      Except.error "File path '__main__.py' is reserved for the execution entrypoint."
    else
      let dirs := addMissingDirs uid gid created (prefixJoins parts.dropLast)
      let tail ← stageFiles uid gid dirs.2 rest
      Except.ok (dirs.1 ++ ⟨String.intercalate "/" parts, false, 0o644, uid, gid, content.length⟩ :: tail)

/-- `_create_tar_archive`, parametrised by the owner uid/gid the builder
assigns (Kubernetes: 65532/65532; Docker: the `TarInfo` defaults 0/0). -/
def create_tar_archive (uid gid : Nat) (code : List Nat)
    (files : List (String × List Nat)) : Except String (List TarEntry) := do
  let tail ← stageFiles uid gid [] files
  Except.ok (⟨"__main__.py", false, 0o644, uid, gid, code.length⟩ :: tail)

namespace DockerExecutor

/-- `DockerExecutor._create_tar_archive`: no `uid`/`gid` assignment, so
every header keeps the `tarfile.TarInfo` defaults `uid = 0, gid = 0`. -/
def create_tar_archive (code : List Nat) (files : List (String × List Nat)) :
    Except String (List TarEntry) :=
  CodeInterpreter.create_tar_archive 0 0 code files

end DockerExecutor

namespace KubernetesExecutor

/-- `KubernetesExecutor._create_tar_archive`: sets `uid = gid = 65532` on
every header. -/
def create_tar_archive (code : List Nat) (files : List (String × List Nat)) :
    Except String (List TarEntry) :=
  CodeInterpreter.create_tar_archive 65532 65532 code files

end KubernetesExecutor

/-! ### `_StreamTracker` (executor_docker.py lines 484-511)

```python
def decode_chunk(self, data: bytes) -> StreamChunk | None:
    chunk: StreamChunk | None = None
    if self.bytes_sent < self.max_bytes:
        allowed = self.max_bytes - self.bytes_sent
        text = self.decoder.decode(data[:allowed], False)
        if text:
            chunk = StreamChunk(stream=self.stream, data=text)
    self.bytes_sent += len(data)
    return chunk
```

The tracker is embedded at the byte level: `decode_chunk` returns the
updated tracker together with the raw byte slice `data[:allowed]` handed
to the incremental UTF-8 decoder (empty when the cap is already reached);
the decoded text of an emitted `StreamChunk` is exactly the decoding of
those bytes (modulo the decoder buffering an incomplete trailing
sequence, which `flush` later drains), so byte accounting happens on this
slice, as in the source. -/

structure StreamTracker where
  bytes_sent : Nat
  max_bytes : Nat
  deriving Repr, DecidableEq

/-- `_StreamTracker.__init__(stream, max_bytes)`. -/
def StreamTracker.init (max_bytes : Nat) : StreamTracker :=
  ⟨0, max_bytes⟩

/-- `_StreamTracker.decode_chunk`: the updated tracker and the raw bytes
passed to the decoder (the bytes an emitted chunk decodes). -/
def StreamTracker.decode_chunk (t : StreamTracker) (data : List Nat) :
    StreamTracker × List Nat :=
  let fed := if t.bytes_sent < t.max_bytes then data.take (t.max_bytes - t.bytes_sent)
             else []
  (⟨t.bytes_sent + data.length, t.max_bytes⟩, fed)

/-- Feed a whole sequence of raw reads through one tracker, collecting
the byte slices passed to the decoder.  The reading loop in
`_stream_process_output` never unregisters a stream on account of the
cap (only on end-of-file), so every received chunk reaches
`decode_chunk`; this function consumes its input list in full. -/
def StreamTracker.feedAll (t : StreamTracker) :
    List (List Nat) → StreamTracker × List (List Nat)
  | [] => (t, [])
  | d :: ds =>
    let step := t.decode_chunk d
    let rest := step.1.feedAll ds
    (rest.1, step.2 :: rest.2)

/-! ### Workspace snapshot extraction (`_extract_workspace_snapshot`,
executor_docker.py lines 145-192, executor_kubernetes.py lines 183-271)

Both backends list the members of the tar archive produced by
`tar -c --exclude=__main__.py -C /workspace .` and build `WorkspaceEntry`
values:

```python
if member.name == ".":
    continue
clean_path = member.name.lstrip("./")
if member.isdir():
    entries.append(WorkspaceEntry(path=clean_path, kind="directory", content=None))
elif member.isfile():
    file_obj = tar.extractfile(member)
    if file_obj:
        content = file_obj.read()
        entries.append(WorkspaceEntry(path=clean_path, kind="file", content=content))
```

`str.lstrip("./")` strips every leading character that is `'.'` or
`'/'`, not the literal prefix `"./"`. -/

inductive EntryKind where
  | file
  | directory
  deriving Repr, DecidableEq

structure WorkspaceEntry where
  path : String
  kind : EntryKind
  content : Option (List Nat)
  deriving Repr, DecidableEq

inductive TarMemberKind where
  | dir
  | file
  | other
  deriving Repr, DecidableEq

/-- A member of the snapshot archive: its name, its kind
(`isdir()` / `isfile()` / anything else), and — for regular files — the
bytes `tar.extractfile(member).read()` returns. -/
structure TarMember where
  name : String
  kind : TarMemberKind
  content : List Nat
  deriving Repr, DecidableEq

/-- Python's `s.lstrip("./")`: drop every leading character belonging to
the set `{'.', '/'}`. -/
def lstripDotSlash (s : String) : String :=
  ⟨s.data.dropWhile (fun c => c = '.' ∨ c = '/')⟩

/-- The member loop of `_extract_workspace_snapshot` (identical in both
backends), producing the ordered entry tuple. -/
def extract_workspace_snapshot : List TarMember → List WorkspaceEntry
  | [] => []
  | m :: rest =>
    if m.name = "." then extract_workspace_snapshot rest
    else
      let clean_path := lstripDotSlash m.name
      match m.kind with
      | TarMemberKind.dir =>
        ⟨clean_path, EntryKind.directory, none⟩ :: extract_workspace_snapshot rest
      | TarMemberKind.file =>
        ⟨clean_path, EntryKind.file, some m.content⟩ :: extract_workspace_snapshot rest
      | TarMemberKind.other => extract_workspace_snapshot rest

/-! ### `_save_workspace_files` (routes.py lines 68-83) and the File Store

```python
for entry in entries:
    if entry.kind == EntryKind.DIRECTORY:
        continue
    if entry.kind == EntryKind.FILE and entry.content is not None:
        if entry.path in input_files_map and entry.content == input_files_map[entry.path]:
            continue
        file_id = storage.save_file(entry.content, entry.path)
        workspace_files.append(WorkspaceFile(path=entry.path, kind=entry.kind, file_id=file_id))
```

`FileStorageService.save_file` allocates a fresh `uuid.uuid4()` id and
writes the payload and its metadata under it; freshness is modelled by a
counter, and the store by the list of `(id, bytes, filename)` records
written so far. -/

structure FileStore where
  next_id : Nat
  files : List (Nat × List Nat × String)
  deriving Repr, DecidableEq

/-- `FileStorageService.save_file(content, filename)`: store the payload
under a fresh id and return the id. -/
def FileStore.save_file (st : FileStore) (content : List Nat) (filename : String) :
    Nat × FileStore :=
  (st.next_id, ⟨st.next_id + 1, st.files ++ [(st.next_id, content, filename)]⟩)

structure WorkspaceFile where
  path : String
  kind : EntryKind
  file_id : Nat
  deriving Repr, DecidableEq

/-- `_save_workspace_files`: filter and save new/modified workspace files,
returning the recorded response rows and the updated store.  The staged
inputs dict is modelled as an association list queried with `lookup`. -/
def save_workspace_files (input_files_map : List (String × List Nat)) :
    List WorkspaceEntry → FileStore → List WorkspaceFile × FileStore
  | [], storage => ([], storage)
  | e :: rest, storage =>
    match e.kind, e.content with
    | EntryKind.directory, _ => save_workspace_files input_files_map rest storage
    | EntryKind.file, none => save_workspace_files input_files_map rest storage
    | EntryKind.file, some c =>
      if input_files_map.lookup e.path = some c then
        save_workspace_files input_files_map rest storage
      else
        let saved := storage.save_file c e.path
        let tail := save_workspace_files input_files_map rest saved.2
        (⟨e.path, EntryKind.file, saved.1⟩ :: tail.1, tail.2)

/-! ### Execution result assembly (`execute_python`,
executor_docker.py lines 342-412, executor_kubernetes.py lines 282-506)

The Docker backend calls `proc.communicate(..., timeout=timeout_ms/1000)`;
a normal return sets `timed_out = False`, while `subprocess.TimeoutExpired`
sets `timed_out = True`, force-kills the process (`pkill -9 python` in the
container plus `proc.kill()`) and drains the pipes.  Either way the method
then builds and *returns* an `ExecutionResult` (the timeout path raises
nothing) with `exit_code = None if timed_out else ctx.proc.returncode`.
The outcome of the I/O is modelled as a `CommOutcome`. -/

structure ExecutionResult where
  stdout : List Nat
  stderr : List Nat
  exit_code : Option Int
  timed_out : Bool
  duration_ms : Nat
  files : List WorkspaceEntry
  deriving Repr, DecidableEq

/-- Outcome of `proc.communicate(input, timeout)`: either the process
exited within the deadline with an exit status, or `TimeoutExpired` was
raised and the process was force-killed (the drained pipes still carry
the bytes produced before the kill). -/
inductive CommOutcome where
  | completed (stdout_bytes stderr_bytes : List Nat) (returncode : Int)
  | timedOut (stdout_bytes stderr_bytes : List Nat)
  deriving Repr, DecidableEq

namespace DockerExecutor

/-- `DockerExecutor.execute_python` after the container I/O, as a function
of the communicate outcome: truncation, `timed_out`, and
`exit_code = None if timed_out else returncode`. -/
def execute_python (outcome : CommOutcome) (max_output_bytes : Nat)
    (workspace_snapshot : List WorkspaceEntry) (duration_ms : Nat) : ExecutionResult :=
  match outcome with
  | CommOutcome.completed out err rc =>
    ⟨truncate_output out max_output_bytes, truncate_output err max_output_bytes,
      some rc, false, duration_ms, workspace_snapshot⟩
  | CommOutcome.timedOut out err =>
    ⟨truncate_output out max_output_bytes, truncate_output err max_output_bytes,
      none, true, duration_ms, workspace_snapshot⟩

end DockerExecutor

/-! The Kubernetes backend reads the websocket until either the deadline
passes (`timed_out = True`, then `pkill -9 python` in the pod) or the
error channel reports completion, mapping `"Success"` to exit code 0, a
`NonZeroExitCode` with details to the reported code, and a non-zero
status without details to 1; the final result carries
`exit_code = exit_code if not timed_out else None`. -/

/-- The parsed error-channel verdict when the program finishes. -/
inductive K8sErrorChannel where
  | success
  | nonZero (code : Int)
  | nonZeroNoDetails
  deriving Repr, DecidableEq

/-- The exit code `KubernetesExecutor.execute_python` derives from the
error channel. -/
def K8sErrorChannel.exitCode : K8sErrorChannel → Int
  | K8sErrorChannel.success => 0
  | K8sErrorChannel.nonZero code => code
  | K8sErrorChannel.nonZeroNoDetails => 1

/-- Outcome of the Kubernetes read loop: deadline reached, or the error
channel reported completion. -/
inductive K8sOutcome where
  | completed (stdout_bytes stderr_bytes : List Nat) (channel : K8sErrorChannel)
  | timedOut (stdout_bytes stderr_bytes : List Nat)
  deriving Repr, DecidableEq

namespace KubernetesExecutor

/-- `KubernetesExecutor.execute_python` after the pod I/O, as a function
of the read-loop outcome. -/
def execute_python (outcome : K8sOutcome) (max_output_bytes : Nat)
    (workspace_snapshot : List WorkspaceEntry) (duration_ms : Nat) : ExecutionResult :=
  match outcome with
  | K8sOutcome.completed out err channel =>
    ⟨truncate_output out max_output_bytes, truncate_output err max_output_bytes,
      some channel.exitCode, false, duration_ms, workspace_snapshot⟩
  | K8sOutcome.timedOut out err =>
    ⟨truncate_output out max_output_bytes, truncate_output err max_output_bytes,
      none, true, duration_ms, workspace_snapshot⟩

end KubernetesExecutor

/-! ### Streaming execution (`execute_python_streaming` and
`_stream_process_output`, executor_docker.py lines 431-472 and 514-568)

`_stream_process_output` multiplexes the two pipes: every `os.read`
result is handed to the matching tracker's `decode_chunk`, and a
`StreamChunk` is yielded whenever the decoded text is non-empty; after
the loop each tracker is flushed.  The generator in
`execute_python_streaming` then yields a single `StreamResult`.  The
sequence of `os.read` results is modelled as a list of
`(stream, bytes)` pairs; a chunk is emitted exactly when the byte slice
passed to the decoder is non-empty (in the byte-level decoder model the
flush buffer is always empty, so `flush` contributes no event). -/

inductive StreamName where
  | stdout
  | stderr
  deriving Repr, DecidableEq

structure StreamChunk where
  stream : StreamName
  data : List Nat
  deriving Repr, DecidableEq

structure StreamResult where
  exit_code : Option Int
  timed_out : Bool
  duration_ms : Nat
  files : List WorkspaceEntry
  deriving Repr, DecidableEq

inductive StreamEvent where
  | chunk (c : StreamChunk)
  | result (r : StreamResult)
  deriving Repr, DecidableEq

/-- `_stream_process_output`: feed each read to its stream's tracker and
emit a chunk when the tracker produced one. -/
def stream_process_output (tOut tErr : StreamTracker) :
    List (StreamName × List Nat) → List StreamChunk
  | [] => []
  | (StreamName.stdout, data) :: rest =>
    let step := tOut.decode_chunk data
    if step.2.isEmpty then stream_process_output step.1 tErr rest
    else ⟨StreamName.stdout, step.2⟩ :: stream_process_output step.1 tErr rest
  | (StreamName.stderr, data) :: rest =>
    let step := tErr.decode_chunk data
    if step.2.isEmpty then stream_process_output tOut step.1 rest
    else ⟨StreamName.stderr, step.2⟩ :: stream_process_output tOut step.1 rest

namespace DockerExecutor

/-- `DockerExecutor.execute_python_streaming`: the full event sequence —
the chunks produced by `_stream_process_output`, then exactly one
`StreamResult` with `exit_code = None if timed_out else returncode`. -/
def execute_python_streaming (max_output_bytes : Nat)
    (reads : List (StreamName × List Nat)) (timed_out : Bool) (returncode : Int)
    (duration_ms : Nat) (workspace_snapshot : List WorkspaceEntry) : List StreamEvent :=
  (stream_process_output (StreamTracker.init max_output_bytes)
      (StreamTracker.init max_output_bytes) reads).map StreamEvent.chunk
    ++ [StreamEvent.result
        ⟨if timed_out then none else some returncode, timed_out, duration_ms,
          workspace_snapshot⟩]

end DockerExecutor

/-! ### Resource ceilings (`_build_run_command`, executor_docker.py lines
194-256; `_create_pod_manifest`, executor_kubernetes.py lines 51-122)

```python
if cpu_time_limit_sec is not None:
    cpu_limit = max(int(cpu_time_limit_sec), 1)
    cmd.extend(["--ulimit", f"cpu={cpu_limit}:{cpu_limit}"])
if memory_limit_mb is not None:
    memory_limit = max(int(memory_limit_mb), 16)
    mem_flag = f"{memory_limit}m"
    cmd.extend(["--memory", mem_flag, "--memory-swap", mem_flag])
```

and, in the pod manifest,

```python
if memory_limit_mb is not None:
    memory_limit = max(int(memory_limit_mb), 16)
    resources["limits"]["memory"] = f"{memory_limit}Mi"
    resources["requests"]["memory"] = f"{min(memory_limit, 64)}Mi"
if cpu_time_limit_sec is not None:
    cpu_limit = max(int(cpu_time_limit_sec), 1)
    resources["limits"]["cpu"] = str(cpu_limit)
    resources["requests"]["cpu"] = "100m"
```
-/

namespace DockerExecutor

/-- `DockerExecutor._build_run_command`.  `run_args` models
`shlex.split(self.run_args)`. -/
def build_run_command (docker_binary image : String) (run_args : List String)
    (container_name : String) (cpu_time_limit_sec memory_limit_mb : Option Int)
    (timeout_ms : Int) : List String :=
  [docker_binary, "run", "-d", "--rm", "--pull", "never",
   "--network", "none", "--name", container_name,
   "--cgroupns", "host", "--pids-limit", "64",
   "--security-opt", "no-new-privileges",
   "--cap-drop", "ALL", "--cap-add", "CHOWN",
   "--workdir", "/workspace",
   "--tmpfs", "/tmp:rw,size=64m",
   "--tmpfs", "/workspace:rw,uid=65532,gid=65532",
   "--env", "PYTHONUNBUFFERED=1",
   "--env", "PYTHONDONTWRITEBYTECODE=1",
   "--env", "PYTHONIOENCODING=utf-8",
   "--env", "MPLCONFIGDIR=/tmp/matplotlib"]
  ++ (match cpu_time_limit_sec with
      | some c =>
        let cpu_limit := max c 1
        ["--ulimit", "cpu=" ++ toString cpu_limit ++ ":" ++ toString cpu_limit]
      | none => [])
  ++ (match memory_limit_mb with
      | some m =>
        let memory_limit := max m 16
        let mem_flag := toString memory_limit ++ "m"
        ["--memory", mem_flag, "--memory-swap", mem_flag]
      | none => [])
  ++ run_args
  ++ [image, "sleep", toString (timeout_ms * 1000 + 10)]

end DockerExecutor

/-- The `resources` dict of the pod manifest: `limits` and `requests` as
key/value lists. -/
structure K8sResources where
  limits : List (String × String)
  requests : List (String × String)
  deriving Repr, DecidableEq

namespace KubernetesExecutor

/-- The resource block built by `KubernetesExecutor._create_pod_manifest`. -/
def pod_resources (memory_limit_mb cpu_time_limit_sec : Option Int) : K8sResources :=
  let r0 : K8sResources := ⟨[], []⟩
  let r1 :=
    match memory_limit_mb with
    | some m =>
      let memory_limit := max m 16
      ⟨r0.limits ++ [("memory", toString memory_limit ++ "Mi")],
        r0.requests ++ [("memory", toString (min memory_limit 64) ++ "Mi")]⟩
    | none => r0
  match cpu_time_limit_sec with
  | some c =>
    let cpu_limit := max c 1
    ⟨r1.limits ++ [("cpu", toString cpu_limit)], r1.requests ++ [("cpu", "100m")]⟩
  | none => r1

end KubernetesExecutor

/-! ### `FileStorageService.delete_file` (file_storage.py lines 96-116)

```python
existed = file_path.exists()
if file_path.exists():
    file_path.unlink()
if metadata_path.exists():
    metadata_path.unlink()
return existed
```

The storage directory is modelled by the payload files (an association
list from file id to bytes) and the set of ids owning a `.meta.json`
metadata file. -/

structure FileStorageState where
  payloads : List (String × List Nat)
  metas : List String
  deriving Repr, DecidableEq

/-- `FileStorageService.delete_file(file_id)`: report whether the payload
existed, and remove both the payload and the metadata when present. -/
def delete_file (st : FileStorageState) (file_id : String) : Bool × FileStorageState :=
  let existed := (st.payloads.lookup file_id).isSome
  (existed,
    ⟨st.payloads.filter (fun p => p.1 ≠ file_id),
      st.metas.filter (fun m => m ≠ file_id)⟩)

/-! ### Helper definitions used by the theorems -/

/-- Total number of bytes in a list of byte chunks. -/
def sumLens (chunks : List (List Nat)) : Nat :=
  (chunks.map List.length).sum

/-- Whether a stream event is the terminal summary. -/
def StreamEvent.isResult : StreamEvent → Bool
  | StreamEvent.result _ => true
  | StreamEvent.chunk _ => false

/-- The names of the directory headers of an archive, in order. -/
def dirNames (entries : List TarEntry) : List String :=
  (entries.filter (fun e => e.isDir)).map TarEntry.name

/-- Spec-side description of the staged-input portion of the archive
(claim C3's wording): for each staged input, in order, the ancestor
directories not created yet — in depth order, each at most once, before
any child — then the file itself; directories have mode `0o755`, files
mode `0o644` and a declared size equal to the content's byte length.
Each staged input is given by its validated path parts and its content
length. -/
def specStagedEntries (uid gid : Nat) :
    List String → List (List String × Nat) → List TarEntry
  | _, [] => []
  | created, (parts, size) :: rest =>
    let dirs := (prefixJoins parts.dropLast).filter (fun d => d ∉ created)
    dirs.map (fun d => ⟨d ++ "/", true, 0o755, uid, gid, 0⟩)
      ++ ⟨String.intercalate "/" parts, false, 0o644, uid, gid, size⟩
        :: specStagedEntries uid gid (created ++ dirs) rest

/-- Spec-side description of the whole archive (claim C3's wording):
first the entrypoint `__main__.py` at the archive root with mode
`0o644`, then the staged inputs. -/
def specArchive (uid gid codeLen : Nat) (staged : List (List String × Nat)) :
    List TarEntry :=
  ⟨"__main__.py", false, 0o644, uid, gid, codeLen⟩
    :: specStagedEntries uid gid [] staged

/-! ## Theorems -/

/-- C1 (counterexample): the claim that, on truncation, the retained byte
content has length exactly `max_output_bytes` is false: for a 100-byte
stream and a 50-byte cap, `truncate_output` keeps `50 - 32 = 18` bytes and
appends the 15-byte marker, retaining 33 bytes, not 50. -/
theorem truncate_output_cap_not_exact :
    50 < (List.replicate 100 97).length ∧
      (truncate_output (List.replicate 100 97) 50).length ≠ 50 := by
  decide

/-- C1 (amended): if `len(s) ≤ max_output_bytes` the stream is returned
unchanged (then UTF-8-decoded with replacement); if `len(s) >
max_output_bytes`, the result is the retained prefix of
`max(0, max_output_bytes - 32)` bytes followed by the 15-byte ASCII marker
`"\n...[truncated]"`, so the retained byte content has length
`max(0, max_output_bytes - 32) + 15` and its last 15 bytes equal the
marker. -/
theorem truncate_output_spec (stream : List Nat) (max_bytes : Nat) :
    (stream.length ≤ max_bytes → truncate_output stream max_bytes = stream) ∧
      (max_bytes < stream.length →
        truncate_output stream max_bytes
            = stream.take (max_bytes - 32) ++ truncationSuffix ∧
          (truncate_output stream max_bytes).length = (max_bytes - 32) + 15 ∧
          (truncate_output stream max_bytes).drop (max_bytes - 32)
            = truncationSuffix) := by
  constructor
  · intro h
    simp [truncate_output, h]
  · intro h
    have h' : ¬ stream.length ≤ max_bytes := by omega
    have htake : (stream.take (max_bytes - 32)).length = max_bytes - 32 := by
      simp [List.length_take]
      omega
    refine ⟨by simp [truncate_output, h'], ?_, ?_⟩
    · simp [truncate_output, h', truncationSuffix, List.length_take]
      omega
    · simp only [truncate_output, if_neg h']
      exact List.drop_left' htake

/-- C1 (witness for the amended theorem). -/
theorem truncate_output_spec_witness :
    truncate_output [104, 105] 5 = [104, 105] ∧
      (truncate_output (List.replicate 40 104) 33).length = 16 :=
  ⟨(truncate_output_spec [104, 105] 5).1 (by decide),
    ((truncate_output_spec (List.replicate 40 104) 33).2 (by decide)).2.1⟩

/-- C4 (code bug, evaluated at the failing input): the snapshot member
`"./.hidden"` is reported with path `"hidden"`, because
`str.lstrip("./")` strips every leading `'.'` and `'/'` character rather
than one `"./"` prefix; the claim (and the code's own comment, "remove
leading ./") calls for `".hidden"`. -/
theorem extract_workspace_snapshot_hidden_file :
    extract_workspace_snapshot [⟨"./.hidden", TarMemberKind.file, [104, 105]⟩]
        = [⟨"hidden", EntryKind.file, some [104, 105]⟩] ∧
      lstripDotSlash "./.hidden" ≠ ".hidden" := by
  constructor
  · rfl
  · decide

/-- C7: a timed-out execution is delivered as an ordinary
`ExecutionResult` with `timed_out = true` and `exit_code = none`, in both
backends; a process that exits within the deadline yields
`timed_out = false` and its exit status (for Kubernetes, the status the
error channel reports). -/
theorem execute_python_timeout_spec (max_output_bytes : Nat)
    (snapshot : List WorkspaceEntry) (duration_ms : Nat) :
    (∀ out err,
      (DockerExecutor.execute_python (CommOutcome.timedOut out err)
          max_output_bytes snapshot duration_ms).timed_out = true ∧
      (DockerExecutor.execute_python (CommOutcome.timedOut out err)
          max_output_bytes snapshot duration_ms).exit_code = none) ∧
    (∀ out err rc,
      (DockerExecutor.execute_python (CommOutcome.completed out err rc)
          max_output_bytes snapshot duration_ms).timed_out = false ∧
      (DockerExecutor.execute_python (CommOutcome.completed out err rc)
          max_output_bytes snapshot duration_ms).exit_code = some rc) ∧
    (∀ out err,
      (KubernetesExecutor.execute_python (K8sOutcome.timedOut out err)
          max_output_bytes snapshot duration_ms).timed_out = true ∧
      (KubernetesExecutor.execute_python (K8sOutcome.timedOut out err)
          max_output_bytes snapshot duration_ms).exit_code = none) ∧
    (∀ out err channel,
      (KubernetesExecutor.execute_python (K8sOutcome.completed out err channel)
          max_output_bytes snapshot duration_ms).timed_out = false ∧
      (KubernetesExecutor.execute_python (K8sOutcome.completed out err channel)
          max_output_bytes snapshot duration_ms).exit_code
        = some channel.exitCode) := by
  refine ⟨fun out err => ⟨rfl, rfl⟩, fun out err rc => ⟨rfl, rfl⟩,
    fun out err => ⟨rfl, rfl⟩, fun out err channel => ⟨rfl, rfl⟩⟩

/-- C10: `delete_file` returns `true` exactly when the payload existed at
the time of the call; it removes the metadata file even when only the
orphan metadata exists (so the store never retains metadata without a
payload after a delete), and a second identical delete returns `false`
and changes nothing. -/
theorem delete_file_spec (st : FileStorageState) (file_id : String) :
    (delete_file st file_id).1 = (st.payloads.lookup file_id).isSome ∧
      (delete_file st file_id).2.payloads.lookup file_id = none ∧
      file_id ∉ (delete_file st file_id).2.metas ∧
      (delete_file (delete_file st file_id).2 file_id).1 = false ∧
      (delete_file (delete_file st file_id).2 file_id).2
        = (delete_file st file_id).2 := by
  have hlook : ∀ l : List (String × List Nat),
      (l.filter (fun p => p.1 ≠ file_id)).lookup file_id = none := by
    intro l
    induction l with
    | nil => simp
    | cons a l ih =>
      by_cases h : a.1 = file_id
      · simpa [List.filter_cons, h] using ih
      · have hne : (file_id == a.1) = false := by
          simp only [beq_eq_false_iff_ne]
          exact fun e => h e.symm
        simp [List.filter_cons, h, List.lookup, hne]
        exact fun x y _ hx e => hx e.symm
  refine ⟨rfl, hlook st.payloads, ?_, ?_, ?_⟩
  · simp [delete_file, List.mem_filter]
  · simp [delete_file, hlook]
    exact fun x y _ hx e => hx e.symm
  · simp [delete_file, List.filter_filter]

/-- C3 (counterexample): the Docker builder leaves the `tarfile.TarInfo`
default owner `uid = gid = 0` on every header (it never assigns
`uid`/`gid`), so already the entrypoint of the archive for code `[104]`
and no staged inputs is owned by 0, not 65532 as the claim states. -/
theorem docker_archive_owner_is_root :
    DockerExecutor.create_tar_archive [104] []
        = Except.ok [⟨"__main__.py", false, 0o644, 0, 0, 1⟩] ∧
      (0 : Nat) ≠ 65532 := by
  exact ⟨rfl, by decide⟩

/-- C9: with supplied ceilings, the Docker run command carries the ulimit
pair for `max(cpu_time_limit_sec, 1)` and the memory/swap pair for
`max(memory_limit_mb, 16)` MiB, and the pod manifest's resource block
carries the same clamped limits; a request below the floor is raised to
the floor. -/
theorem resource_clamp_spec (docker_binary image container_name : String)
    (run_args : List String) (timeout_ms : Int) (c m : Int) :
    (∃ pre post,
      DockerExecutor.build_run_command docker_binary image run_args container_name
          (some c) (some m) timeout_ms
        = pre
          ++ ["--ulimit", "cpu=" ++ toString (max c 1) ++ ":" ++ toString (max c 1)]
          ++ post) ∧
    (∃ pre post,
      DockerExecutor.build_run_command docker_binary image run_args container_name
          (some c) (some m) timeout_ms
        = pre
          ++ ["--memory", toString (max m 16) ++ "m",
              "--memory-swap", toString (max m 16) ++ "m"]
          ++ post) ∧
    KubernetesExecutor.pod_resources (some m) (some c)
      = ⟨[("memory", toString (max m 16) ++ "Mi"), ("cpu", toString (max c 1))],
          [("memory", toString (min (max m 16) 64) ++ "Mi"), ("cpu", "100m")]⟩ ∧
    (c < 1 → max c 1 = 1) ∧
    (m < 16 → max m 16 = 16) := by
  refine ⟨?_, ?_, ?_, ?_, ?_⟩
  · refine ⟨[docker_binary, "run", "-d", "--rm", "--pull", "never",
      "--network", "none", "--name", container_name,
      "--cgroupns", "host", "--pids-limit", "64",
      "--security-opt", "no-new-privileges",
      "--cap-drop", "ALL", "--cap-add", "CHOWN",
      "--workdir", "/workspace",
      "--tmpfs", "/tmp:rw,size=64m",
      "--tmpfs", "/workspace:rw,uid=65532,gid=65532",
      "--env", "PYTHONUNBUFFERED=1",
      "--env", "PYTHONDONTWRITEBYTECODE=1",
      "--env", "PYTHONIOENCODING=utf-8",
      "--env", "MPLCONFIGDIR=/tmp/matplotlib"],
      ["--memory", toString (max m 16) ++ "m",
        "--memory-swap", toString (max m 16) ++ "m"]
        ++ run_args ++ [image, "sleep", toString (timeout_ms * 1000 + 10)], ?_⟩
    simp [DockerExecutor.build_run_command]
  · refine ⟨[docker_binary, "run", "-d", "--rm", "--pull", "never",
      "--network", "none", "--name", container_name,
      "--cgroupns", "host", "--pids-limit", "64",
      "--security-opt", "no-new-privileges",
      "--cap-drop", "ALL", "--cap-add", "CHOWN",
      "--workdir", "/workspace",
      "--tmpfs", "/tmp:rw,size=64m",
      "--tmpfs", "/workspace:rw,uid=65532,gid=65532",
      "--env", "PYTHONUNBUFFERED=1",
      "--env", "PYTHONDONTWRITEBYTECODE=1",
      "--env", "PYTHONIOENCODING=utf-8",
      "--env", "MPLCONFIGDIR=/tmp/matplotlib"]
      ++ ["--ulimit", "cpu=" ++ toString (max c 1) ++ ":" ++ toString (max c 1)],
      run_args ++ [image, "sleep", toString (timeout_ms * 1000 + 10)], ?_⟩
    simp [DockerExecutor.build_run_command]
  · simp [KubernetesExecutor.pod_resources]
  · intro h
    omega
  · intro h
    omega

/-- C9 (witness): a caller requesting ceilings below the floors gets the
floors instead. -/
theorem resource_clamp_spec_witness :
    KubernetesExecutor.pod_resources (some 8) (some 0)
        = ⟨[("memory", "16Mi"), ("cpu", "1")], [("memory", "16Mi"), ("cpu", "100m")]⟩ ∧
      max (0 : Int) 1 = 1 ∧ max (8 : Int) 16 = 16 :=
  ⟨by
    have h := (resource_clamp_spec "docker" "img" "c" [] 1000 0 8).2.2.1
    simpa using h,
    (resource_clamp_spec "docker" "img" "c" [] 1000 0 8).2.2.2.1 (by decide),
    (resource_clamp_spec "docker" "img" "c" [] 1000 0 8).2.2.2.2 (by decide)⟩

/-- Chunks mapped into the event stream are never terminal summaries. -/
theorem filter_isResult_map_chunk (l : List StreamChunk) :
    (l.map StreamEvent.chunk).filter StreamEvent.isResult = [] := by
  induction l with
  | nil => rfl
  | cons c cs ih => simp [StreamEvent.isResult, ih]

/-- C8: a streaming execution emits exactly one terminal `StreamResult`,
it is the last event (every earlier event is a chunk), and it carries the
exit code (`none` when timed out), the timed-out flag, the duration and
the workspace entries. -/
theorem streaming_single_terminal (max_output_bytes : Nat)
    (reads : List (StreamName × List Nat)) (timed_out : Bool) (returncode : Int)
    (duration_ms : Nat) (snapshot : List WorkspaceEntry) :
    ((DockerExecutor.execute_python_streaming max_output_bytes reads timed_out
        returncode duration_ms snapshot).filter StreamEvent.isResult).length = 1 ∧
      (DockerExecutor.execute_python_streaming max_output_bytes reads timed_out
          returncode duration_ms snapshot).getLast?
        = some (StreamEvent.result
            ⟨if timed_out then none else some returncode, timed_out, duration_ms,
              snapshot⟩) ∧
      (∀ e ∈ (DockerExecutor.execute_python_streaming max_output_bytes reads timed_out
          returncode duration_ms snapshot).dropLast, StreamEvent.isResult e = false) := by
  refine ⟨?_, ?_, ?_⟩
  · simp [DockerExecutor.execute_python_streaming, List.filter_append,
      filter_isResult_map_chunk, StreamEvent.isResult]
  · simp [DockerExecutor.execute_python_streaming, List.getLast?_concat]
  · intro e he
    simp only [DockerExecutor.execute_python_streaming, List.dropLast_concat,
      List.mem_map] at he
    obtain ⟨c, _, rfl⟩ := he
    rfl

/-- C8 (witness). -/
theorem streaming_single_terminal_witness :
    StreamEvent.isResult (StreamEvent.chunk ⟨StreamName.stdout, [97]⟩) = false :=
  (streaming_single_terminal 5 [(StreamName.stdout, [97])] false 0 3 []).2.2
    (StreamEvent.chunk ⟨StreamName.stdout, [97]⟩) (by decide)

/-- The tracker's byte counter counts the full length of every chunk
received, and its cap never changes. -/
theorem feedAll_bytes_sent (chunks : List (List Nat)) :
    ∀ t : StreamTracker,
      (t.feedAll chunks).1.bytes_sent = t.bytes_sent + sumLens chunks ∧
        (t.feedAll chunks).1.max_bytes = t.max_bytes := by
  induction chunks with
  | nil =>
    intro t
    simp [StreamTracker.feedAll, sumLens]
  | cons d ds ih =>
    intro t
    have h := ih (t.decode_chunk d).1
    simp [StreamTracker.feedAll, StreamTracker.decode_chunk, sumLens] at h ⊢
    omega

/-- The bytes a tracker passes on to the decoder are exactly the received
bytes clamped to the room left under its cap. -/
theorem feedAll_fed_eq (chunks : List (List Nat)) :
    ∀ t : StreamTracker,
      sumLens (t.feedAll chunks).2
        = min (t.bytes_sent + sumLens chunks) t.max_bytes
          - min t.bytes_sent t.max_bytes := by
  induction chunks with
  | nil =>
    intro t
    simp [StreamTracker.feedAll, sumLens]
  | cons d ds ih =>
    intro t
    have h := ih (t.decode_chunk d).1
    by_cases hc : t.bytes_sent < t.max_bytes
    · simp [StreamTracker.feedAll, StreamTracker.decode_chunk, hc, sumLens,
        List.length_take] at h ⊢
      omega
    · simp [StreamTracker.feedAll, StreamTracker.decode_chunk, hc, sumLens] at h ⊢
      omega

/-- C2: over any sequence of raw chunks, the total number of raw bytes a
per-stream tracker passes to the decoder (the bytes emitted as chunks)
equals the received total clamped to `max_output_bytes` — so it never
exceeds the cap, and dropping begins exactly once that many bytes have
been emitted; the per-stream byte counter increases by the full length
of every chunk received (the tracker consumes the whole sequence, never
stopping early); and once the counter has reached the cap, a further
chunk feeds nothing to the decoder while the counter still increases by
its full length. -/
theorem stream_tracker_cap_spec (max_bytes : Nat) (chunks : List (List Nat)) :
    sumLens ((StreamTracker.init max_bytes).feedAll chunks).2
        = min (sumLens chunks) max_bytes ∧
      sumLens ((StreamTracker.init max_bytes).feedAll chunks).2 ≤ max_bytes ∧
      ((StreamTracker.init max_bytes).feedAll chunks).1.bytes_sent = sumLens chunks ∧
      (∀ (t : StreamTracker) (data : List Nat), t.max_bytes ≤ t.bytes_sent →
        (t.decode_chunk data).2 = [] ∧
          (t.decode_chunk data).1.bytes_sent = t.bytes_sent + data.length) := by
  refine ⟨?_, ?_, ?_, ?_⟩
  · have h := feedAll_fed_eq chunks (StreamTracker.init max_bytes)
    simpa [StreamTracker.init] using h
  · have h : sumLens ((StreamTracker.init max_bytes).feedAll chunks).2
        = min (sumLens chunks) max_bytes := by
      simpa [StreamTracker.init] using feedAll_fed_eq chunks (StreamTracker.init max_bytes)
    omega
  · have h := (feedAll_bytes_sent chunks (StreamTracker.init max_bytes)).1
    simpa [StreamTracker.init] using h
  · intro t data h
    refine ⟨?_, rfl⟩
    simp [StreamTracker.decode_chunk, Nat.not_lt.2 h]

/-- C2 (witness): a tracker that already reached its cap drops the bytes
of the next chunk while still counting them. -/
theorem stream_tracker_cap_spec_witness :
    ((⟨5, 5⟩ : StreamTracker).decode_chunk [1, 2]).2 = [] ∧
      ((⟨5, 5⟩ : StreamTracker).decode_chunk [1, 2]).1.bytes_sent = 5 + 2 :=
  (stream_tracker_cap_spec 5 []).2.2.2 ⟨5, 5⟩ [1, 2] (by decide)

/-- Binding a failed `Except` short-circuits. -/
theorem except_bind_error {ε α β : Type} (e : ε) (f : α → Except ε β) :
    (Except.error e >>= f) = Except.error e :=
  rfl

/-- Binding a successful `Except` applies the continuation. -/
theorem except_bind_ok {ε α β : Type} (a : α) (f : α → Except ε β) :
    (Except.ok a >>= f : Except ε β) = f a :=
  rfl

/-- If some staged input fails path validation or normalizes to the
reserved entrypoint name, the staging loop aborts with an error. -/
theorem stageFiles_error_of_bad (uid gid : Nat) (p : String) (content : List Nat)
    (hbad : (∃ e, validate_relative_path p = Except.error e)
      ∨ validate_relative_path p = Except.ok ["__main__.py"]) :
    ∀ (files : List (String × List Nat)) (created : List String),
      (p, content) ∈ files →
        ∃ e, stageFiles uid gid created files = Except.error e := by
  intro files
  induction files with
  | nil =>
    intro created h
    cases h
  | cons f fs ih =>
    intro created hmem
    obtain ⟨q, d⟩ := f
    rcases List.mem_cons.1 hmem with heq | htail
    · obtain ⟨rfl, rfl⟩ := Prod.mk.injEq .. ▸ heq.symm
      rcases hbad with ⟨e, he⟩ | h
      · exact ⟨e, by simp [stageFiles, he, except_bind_error]⟩
      · exact ⟨"File path '__main__.py' is reserved for the execution entrypoint.",
          by simp [stageFiles, h, except_bind_ok]⟩
    · cases hv : validate_relative_path q with
      | error e => exact ⟨e, by simp [stageFiles, hv, except_bind_error]⟩
      | ok parts =>
        by_cases hm : parts = ["__main__.py"]
        · exact ⟨"File path '__main__.py' is reserved for the execution entrypoint.",
            by simp [stageFiles, hv, hm, except_bind_ok]⟩
        · obtain ⟨e, he⟩ :=
            ih (addMissingDirs uid gid created (prefixJoins parts.dropLast)).2 htail
          exact ⟨e, by simp [stageFiles, hv, hm, he, except_bind_ok, except_bind_error]⟩

/-- C5: path validation fails exactly when the input is absolute, some
segment equals `".."`, or the path reduces to empty after discarding
empty and `"."` segments; every other input yields the normalized
relative path with empty and `"."` segments silently discarded; and the
archive builder fails before producing any output when an input fails
validation or normalizes to the reserved entrypoint name
`"__main__.py"`. -/
theorem validate_relative_path_full_spec (s : String) :
    ((∃ e, validate_relative_path s = Except.error e) ↔
      (isAbsolutePath s = true
        ∨ ".." ∈ pathSegments s
        ∨ (pathSegments s).filter (fun p => p ≠ "" ∧ p ≠ ".") = [])) ∧
      (¬ (isAbsolutePath s = true
          ∨ ".." ∈ pathSegments s
          ∨ (pathSegments s).filter (fun p => p ≠ "" ∧ p ≠ ".") = []) →
        validate_relative_path s
          = Except.ok ((pathSegments s).filter (fun p => p ≠ "" ∧ p ≠ "."))) ∧
      (∀ (uid gid : Nat) (code : List Nat) (files : List (String × List Nat))
          (p : String) (content : List Nat), (p, content) ∈ files →
        ((∃ e, validate_relative_path p = Except.error e)
          ∨ validate_relative_path p = Except.ok ["__main__.py"]) →
        ∃ e, create_tar_archive uid gid code files = Except.error e) := by
  have hdd : ".." ∈ (pathSegments s).filter (fun p => p ≠ "" ∧ p ≠ ".")
      ↔ ".." ∈ pathSegments s := by
    simp [List.mem_filter]
  refine ⟨?_, ?_, ?_⟩
  · by_cases habs : isAbsolutePath s = true
    · have hval : validate_relative_path s
          = Except.error "File paths must be relative." := by
        simp only [validate_relative_path]
        rw [if_pos habs]
      exact ⟨fun _ => Or.inl habs, fun _ => ⟨_, hval⟩⟩
    · by_cases hc : ".." ∈ (pathSegments s).filter (fun p => p ≠ "" ∧ p ≠ ".")
      · have hval : validate_relative_path s
            = Except.error "File paths must not contain '..'." := by
          simp only [validate_relative_path]
          rw [if_neg habs, if_pos hc]
        exact ⟨fun _ => Or.inr (Or.inl (hdd.1 hc)), fun _ => ⟨_, hval⟩⟩
      · by_cases hemp : (pathSegments s).filter (fun p => p ≠ "" ∧ p ≠ ".") = []
        · have hval : validate_relative_path s
              = Except.error "File path must not be empty." := by
            simp only [validate_relative_path]
            rw [if_neg habs, if_neg hc, if_pos hemp]
          exact ⟨fun _ => Or.inr (Or.inr hemp), fun _ => ⟨_, hval⟩⟩
        · have hval : validate_relative_path s
              = Except.ok ((pathSegments s).filter (fun p => p ≠ "" ∧ p ≠ ".")) := by
            simp only [validate_relative_path]
            rw [if_neg habs, if_neg hc, if_neg hemp]
          constructor
          · rintro ⟨e, he⟩
            rw [hval] at he
            cases he
          · rintro (h | h | h)
            · exact absurd h habs
            · exact absurd (hdd.2 h) hc
            · exact absurd h hemp
  · intro h
    push_neg at h
    obtain ⟨h1, h2, h3⟩ := h
    have hc : ".." ∉ (pathSegments s).filter (fun p => p ≠ "" ∧ p ≠ ".") :=
      fun hin => h2 (hdd.1 hin)
    simp only [validate_relative_path]
    rw [if_neg h1, if_neg hc, if_neg h3]
  · intro uid gid code files p content hmem hbad
    obtain ⟨e, he⟩ := stageFiles_error_of_bad uid gid p content hbad files [] hmem
    exact ⟨e, by simp [create_tar_archive, he, except_bind_error]⟩

/-- C5 (witness): a path with empty and `"."` segments normalizes by
discarding them, and staging a file named `"__main__.py"` aborts the
builder. -/
theorem validate_relative_path_full_spec_witness :
    validate_relative_path "a//./b" = Except.ok ["a", "b"] ∧
      ∃ e, create_tar_archive 0 0 [104] [("__main__.py", [1])] = Except.error e :=
  ⟨(validate_relative_path_full_spec "a//./b").2.1 (by decide),
    (validate_relative_path_full_spec "x").2.2 0 0 [104] [("__main__.py", [1])]
      "__main__.py" [1] (by decide) (Or.inr rfl)⟩

/-- C6: the workspace diff skips directory entries and file entries whose
path appears among the staged inputs with byte-identical content; each
remaining file entry, in backend order, has its bytes stored in the File
Store under its path with a fresh id, and `(path, kind = file, file_id)`
recorded in the response.  The ids are the consecutive fresh ids starting
at the store's current one. -/
theorem save_workspace_files_spec (input_files_map : List (String × List Nat)) :
    ∀ (entries : List WorkspaceEntry) (storage : FileStore),
      (∀ e ∈ entries, e.kind = EntryKind.file → e.content ≠ none) →
      (save_workspace_files input_files_map entries storage).1
          = ((entries.filter (fun e => e.kind = EntryKind.file ∧
                input_files_map.lookup e.path ≠ e.content)).zip
              (List.range' storage.next_id
                (entries.filter (fun e => e.kind = EntryKind.file ∧
                  input_files_map.lookup e.path ≠ e.content)).length)).map
            (fun pe => ⟨pe.1.path, EntryKind.file, pe.2⟩) ∧
        (save_workspace_files input_files_map entries storage).2.files
          = storage.files
            ++ ((entries.filter (fun e => e.kind = EntryKind.file ∧
                  input_files_map.lookup e.path ≠ e.content)).zip
                (List.range' storage.next_id
                  (entries.filter (fun e => e.kind = EntryKind.file ∧
                    input_files_map.lookup e.path ≠ e.content)).length)).map
              (fun pe => (pe.2, pe.1.content.getD [], pe.1.path)) ∧
        (save_workspace_files input_files_map entries storage).2.next_id
          = storage.next_id
            + (entries.filter (fun e => e.kind = EntryKind.file ∧
                input_files_map.lookup e.path ≠ e.content)).length := by
  intro entries
  induction entries with
  | nil =>
    intro storage _
    simp [save_workspace_files]
  | cons e rest ih =>
    intro storage h
    have hrest : ∀ x ∈ rest, x.kind = EntryKind.file → x.content ≠ none :=
      fun x hx => h x (List.mem_cons_of_mem _ hx)
    obtain ⟨pth, k, cont⟩ := e
    cases k with
    | directory =>
      have hpred : ¬ ((⟨pth, EntryKind.directory, cont⟩ : WorkspaceEntry).kind
          = EntryKind.file ∧
          input_files_map.lookup (⟨pth, EntryKind.directory, cont⟩ :
            WorkspaceEntry).path
            ≠ (⟨pth, EntryKind.directory, cont⟩ : WorkspaceEntry).content) := by
        rintro ⟨hk, -⟩
        cases hk
      rw [List.filter_cons_of_neg (by simp)]
      simpa [save_workspace_files] using ih storage hrest
    | file =>
      cases cont with
      | none =>
        exact absurd rfl
          (h ⟨pth, EntryKind.file, none⟩ (List.mem_cons_self _ _) rfl)
      | some c =>
        by_cases hl : input_files_map.lookup pth = some c
        · have hpred : ¬ ((⟨pth, EntryKind.file, some c⟩ : WorkspaceEntry).kind
              = EntryKind.file ∧
              input_files_map.lookup (⟨pth, EntryKind.file, some c⟩ :
                WorkspaceEntry).path
                ≠ (⟨pth, EntryKind.file, some c⟩ : WorkspaceEntry).content) := by
            rintro ⟨-, hne⟩
            exact hne hl
          rw [List.filter_cons_of_neg (by simpa using hpred)]
          simpa [save_workspace_files, hl] using ih storage hrest
        · have hpred : ((⟨pth, EntryKind.file, some c⟩ : WorkspaceEntry).kind
              = EntryKind.file ∧
              input_files_map.lookup (⟨pth, EntryKind.file, some c⟩ :
                WorkspaceEntry).path
                ≠ (⟨pth, EntryKind.file, some c⟩ : WorkspaceEntry).content) :=
            ⟨rfl, fun hx => hl hx⟩
          rw [List.filter_cons_of_pos (by simpa using hpred)]
          obtain ⟨ih1, ih2, ih3⟩ :=
            ih ⟨storage.next_id + 1, storage.files ++ [(storage.next_id, c, pth)]⟩
              hrest
          simp only [save_workspace_files, FileStore.save_file, if_neg hl,
            List.length_cons, List.range'_succ, List.zip_cons_cons,
            List.map_cons] at ih1 ih2 ih3 ⊢
          refine ⟨?_, ?_, ?_⟩
          · rw [ih1]
          · rw [ih2]
            simp
          · omega

/-- C6 (witness): a directory entry and an unchanged staged input are
skipped; the one modified file is stored under the next fresh id. -/
theorem save_workspace_files_spec_witness :
    (save_workspace_files [("kept.txt", [1])]
        [⟨"d", EntryKind.directory, none⟩,
          ⟨"kept.txt", EntryKind.file, some [1]⟩,
          ⟨"new.txt", EntryKind.file, some [2]⟩] ⟨7, []⟩).1
      = [⟨"new.txt", EntryKind.file, 7⟩] :=
  ((save_workspace_files_spec [("kept.txt", [1])]
      [⟨"d", EntryKind.directory, none⟩,
        ⟨"kept.txt", EntryKind.file, some [1]⟩,
        ⟨"new.txt", EntryKind.file, some [2]⟩] ⟨7, []⟩ (by decide)).1).trans
    (by decide)

/-- Appending a slash to a path string is injective. -/
theorem appendSlash_injective :
    Function.Injective (fun d : String => d ++ "/") := by
  intro a b hab
  have h : a.data ++ "/".data = b.data ++ "/".data := by
    have := congrArg String.data hab
    simpa using this
  exact String.ext (List.append_cancel_right h)

/-- Prefixing a path string (plus slash separator) is injective. -/
theorem slashPrefix_injective (p : String) :
    Function.Injective (fun s : String => p ++ "/" ++ s) := by
  intro a b hab
  have h : (p ++ "/").data ++ a.data = (p ++ "/").data ++ b.data := by
    have := congrArg String.data hab
    simpa using this
  exact String.ext (List.append_cancel_left h)

/-- The ancestor joins of a parts list are pairwise distinct: each join
is strictly longer than the previous one. -/
theorem prefixJoins_nodup : ∀ parts : List String, (prefixJoins parts).Nodup := by
  intro parts
  induction parts with
  | nil => simp [prefixJoins]
  | cons p rest ih =>
    simp only [prefixJoins, List.nodup_cons]
    refine ⟨?_, ih.map (slashPrefix_injective p)⟩
    intro hmem
    obtain ⟨s, -, hs⟩ := List.mem_map.1 hmem
    have hlen := congrArg String.length hs
    have hone : ("/" : String).length = 1 := rfl
    simp only [String.length_append, hone] at hlen
    omega

/-- The incremental `created_dirs` loop emits exactly the ancestors not
already created, in order, and records them. -/
theorem addMissingDirs_eq_filter (uid gid : Nat) :
    ∀ (ds : List String) (created : List String), ds.Nodup →
      addMissingDirs uid gid created ds
        = ((ds.filter (fun d => d ∉ created)).map
            (fun d => ⟨d ++ "/", true, 0o755, uid, gid, 0⟩),
          created ++ ds.filter (fun d => d ∉ created)) := by
  intro ds
  induction ds with
  | nil =>
    intro created _
    simp [addMissingDirs]
  | cons d ds ih =>
    intro created hnd
    obtain ⟨hd, hds⟩ := List.nodup_cons.1 hnd
    by_cases hc : d ∈ created
    · rw [List.filter_cons_of_neg (by simpa using hc)]
      simpa [addMissingDirs, hc] using ih created hds
    · have hfeq : ds.filter (fun x => x ∉ created ++ [d])
          = ds.filter (fun x => x ∉ created) := by
        refine List.filter_congr ?_
        intro x hx
        have hxd : x ≠ d := fun hxd => hd (hxd ▸ hx)
        simp [List.mem_append, hxd]
      rw [List.filter_cons_of_pos (by simpa using hc)]
      have h' := ih (created ++ [d]) hds
      simp only [addMissingDirs, hc, if_false, h', hfeq, List.map_cons]
      simp [List.append_assoc]

/-- The staging loop, on validated inputs, produces exactly the spec-side
layout: per input, the missing ancestors in depth order then the file. -/
theorem stageFiles_eq_spec (uid gid : Nat) (files : List (String × List Nat))
    (vps : List (List String))
    (h : List.Forall₂ (fun f vp => validate_relative_path f.1 = Except.ok vp ∧
      vp ≠ ["__main__.py"]) files vps) :
    ∀ created : List String,
      stageFiles uid gid created files
        = Except.ok (specStagedEntries uid gid created
            (vps.zip (files.map fun f => f.2.length))) := by
  induction h with
  | nil =>
    intro created
    simp [stageFiles, specStagedEntries]
  | @cons f vp fs vps h₁ h₂ ih =>
    intro created
    obtain ⟨p, content⟩ := f
    obtain ⟨hval, hmain⟩ := h₁
    have hdirs := addMissingDirs_eq_filter uid gid
      (prefixJoins vp.dropLast) created (prefixJoins_nodup _)
    simp only [stageFiles, hval, except_bind_ok, if_neg hmain, hdirs,
      ih (created ++ (prefixJoins vp.dropLast).filter (fun d => d ∉ created)),
      except_bind_ok, List.map_cons, List.zip_cons_cons, specStagedEntries]
    rfl

/-- `dirNames` distributes over append. -/
theorem dirNames_append (a b : List TarEntry) :
    dirNames (a ++ b) = dirNames a ++ dirNames b := by
  simp [dirNames, List.filter_append]

/-- The emitted directory names of the spec-side layout are pairwise
distinct, and none of them was created before. -/
theorem specStagedEntries_dirNames (uid gid : Nat) :
    ∀ (staged : List (List String × Nat)) (created : List String),
      (dirNames (specStagedEntries uid gid created staged)).Nodup ∧
        ∀ s ∈ dirNames (specStagedEntries uid gid created staged),
          ∃ d, s = d ++ "/" ∧ d ∉ created := by
  intro staged
  induction staged with
  | nil =>
    intro created
    simp [specStagedEntries, dirNames]
  | cons fp rest ih =>
    intro created
    obtain ⟨parts, size⟩ := fp
    have hdnames : dirNames (specStagedEntries uid gid created ((parts, size) :: rest))
        = ((prefixJoins parts.dropLast).filter (fun d => d ∉ created)).map
            (fun d => d ++ "/")
          ++ dirNames (specStagedEntries uid gid
              (created ++ (prefixJoins parts.dropLast).filter (fun d => d ∉ created))
              rest) := by
      simp only [specStagedEntries, dirNames_append]
      refine congrArg₂ _ ?_ ?_
      · simp [dirNames, List.filter_map, Function.comp]
      · simp [dirNames]
    obtain ⟨ihn, ihm⟩ :=
      ih (created ++ (prefixJoins parts.dropLast).filter (fun d => d ∉ created))
    rw [hdnames]
    constructor
    · refine List.Nodup.append ?_ ihn ?_
      · exact ((prefixJoins_nodup _).filter _).map appendSlash_injective
      · intro s hs hs'
        obtain ⟨d, hdmem, rfl⟩ := List.mem_map.1 hs
        obtain ⟨d', hd', hd'created⟩ := ihm _ hs'
        have hdd' : d = d' := appendSlash_injective hd'
        subst hdd'
        exact hd'created (List.mem_append.2 (Or.inr hdmem))
    · intro s hs
      rcases List.mem_append.1 hs with hs | hs
      · obtain ⟨d, hdmem, rfl⟩ := List.mem_map.1 hs
        have hdnc : d ∉ created := by
          simpa using (List.mem_filter.1 hdmem).2
        exact ⟨d, rfl, hdnc⟩
      · obtain ⟨d, rfl, hdc⟩ := ihm _ hs
        exact ⟨d, rfl, fun hx => hdc (List.mem_append.2 (Or.inl hx))⟩

/-- C3 (amended): for validated staged inputs, both builders produce, in
order, the entrypoint `__main__.py` at the archive root (mode `0o644`),
then, for each staged input in order, its not-yet-created parent
directories (mode `0o755`, each inserted at most once, in depth order
before any child) followed by the file itself (mode `0o644`, declared
size equal to its content's byte length); the owner uid/gid is 65532 in
the Kubernetes builder and the `tarfile` default 0 in the Docker
builder. -/
theorem create_tar_archive_layout (code : List Nat)
    (files : List (String × List Nat)) (vps : List (List String))
    (h : List.Forall₂ (fun f vp => validate_relative_path f.1 = Except.ok vp ∧
      vp ≠ ["__main__.py"]) files vps) :
    (∀ uid gid : Nat,
      create_tar_archive uid gid code files
          = Except.ok (specArchive uid gid code.length
              (vps.zip (files.map fun f => f.2.length))) ∧
        (dirNames (specArchive uid gid code.length
            (vps.zip (files.map fun f => f.2.length)))).Nodup) ∧
      DockerExecutor.create_tar_archive code files
        = Except.ok (specArchive 0 0 code.length
            (vps.zip (files.map fun f => f.2.length))) ∧
      KubernetesExecutor.create_tar_archive code files
        = Except.ok (specArchive 65532 65532 code.length
            (vps.zip (files.map fun f => f.2.length))) := by
  have hmain : ∀ uid gid : Nat,
      create_tar_archive uid gid code files
        = Except.ok (specArchive uid gid code.length
            (vps.zip (files.map fun f => f.2.length))) := by
    intro uid gid
    simp [create_tar_archive, stageFiles_eq_spec uid gid files vps h [],
      except_bind_ok, specArchive]
  refine ⟨fun uid gid => ⟨hmain uid gid, ?_⟩, hmain 0 0, hmain 65532 65532⟩
  have hd := (specStagedEntries_dirNames uid gid
    (vps.zip (files.map fun f => f.2.length)) []).1
  simpa [specArchive, dirNames] using hd

/-- C3 (witness for the amended theorem): one staged input `"a/b.txt"`
yields the entrypoint, the directory `a/`, then the file, with the
Docker owner 0 and the Kubernetes owner 65532. -/
theorem create_tar_archive_layout_witness :
    DockerExecutor.create_tar_archive [104] [("a/b.txt", [1, 2])]
        = Except.ok
          [⟨"__main__.py", false, 0o644, 0, 0, 1⟩,
            ⟨"a/", true, 0o755, 0, 0, 0⟩,
            ⟨"a/b.txt", false, 0o644, 0, 0, 2⟩] ∧
      KubernetesExecutor.create_tar_archive [104] [("a/b.txt", [1, 2])]
        = Except.ok
          [⟨"__main__.py", false, 0o644, 65532, 65532, 1⟩,
            ⟨"a/", true, 0o755, 65532, 65532, 0⟩,
            ⟨"a/b.txt", false, 0o644, 65532, 65532, 2⟩] :=
  have h := create_tar_archive_layout [104] [("a/b.txt", [1, 2])] [["a", "b.txt"]]
    (List.forall₂_cons.2 ⟨⟨rfl, by decide⟩, List.Forall₂.nil⟩)
  ⟨h.2.1.trans rfl, h.2.2.trans rfl⟩

end CodeInterpreter
